import Mathlib

/-!
Verification of the smart-wallet transaction construction engine
(`coinbase-smart-wallet.ts`, `ens-manager.ts`, `nft-*.ts` of the repository).

Shallow embedding conventions:
* `Bytes` is a list of byte values (`List Nat`, each entry `< 256`); the
  TypeScript hex string `'0x'` is the empty list.
* Addresses and uint256 values are `Nat` (valid addresses are `< 2 ^ 160`,
  valid uint256 values `< 2 ^ 256`).
* The ethers `Provider` (plus the contract objects built over it) is an
  oracle: a structure of pure response functions.  A contract call that can
  reject is `Except Unit α`.
* Every pipeline function returns, next to its result, the list of network
  calls it issued, in order, so that claims about "no further network
  calls" can be stated.
* `keccak256` is an ethers library primitive, not repository code; the
  functions that use it (namehash computation) take it as a parameter.
-/

namespace Openburner

/-- Byte strings, one `Nat` per byte. -/
abbrev Bytes := List Nat

/-- Big-endian interpretation of a byte string as a natural number. -/
def bytesToNat (bs : Bytes) : Nat := bs.foldl (fun acc b => acc * 256 + b) 0

/-- Big-endian `w`-byte encoding of `n % 256 ^ w`. -/
def beBytes : Nat → Nat → Bytes
  | 0, _ => []
  | w + 1, n => beBytes w (n / 256) ++ [n % 256]

theorem beBytes_length (w n : Nat) : (beBytes w n).length = w := by
  induction w generalizing n with
  | zero => rfl
  | succ w ih => simp [beBytes, ih]

theorem bytesToNat_append_one (bs : Bytes) (b : Nat) :
    bytesToNat (bs ++ [b]) = bytesToNat bs * 256 + b := by
  simp [bytesToNat, List.foldl_append]

theorem bytesToNat_beBytes (w n : Nat) (h : n < 256 ^ w) :
    bytesToNat (beBytes w n) = n := by
  induction w generalizing n with
  | zero =>
    have : n = 0 := by simpa using h
    simp [this, beBytes, bytesToNat]
  | succ w ih =>
    have hdiv : n / 256 < 256 ^ w := by
      have : n < 256 ^ w * 256 := by
        simpa [Nat.pow_succ] using h
      exact Nat.div_lt_of_lt_mul (by omega)
    rw [beBytes, bytesToNat_append_one, ih _ hdiv]
    omega

theorem take_append_of_length {α : Type} {a : List α} (b : List α) {k : Nat}
    (h : a.length = k) : (a ++ b).take k = a := by
  subst h
  induction a with
  | nil => simp
  | cons hd tl ih => simp [ih]

theorem drop_append_of_length {α : Type} {a : List α} (b : List α) {k : Nat}
    (h : a.length = k) : (a ++ b).drop k = b := by
  subst h
  induction a with
  | nil => simp
  | cons hd tl ih => simp [ih]

theorem take_all_of_length {α : Type} {a : List α} {k : Nat}
    (h : a.length = k) : a.take k = a := by
  subst h
  exact List.take_length a

/-- Extracting the first 32-byte word of a word-aligned byte string. -/
theorem word_take (x : Nat) (rest : Bytes) :
    (beBytes 32 x ++ rest).take 32 = beBytes 32 x :=
  take_append_of_length rest (beBytes_length 32 x)

/-- Consuming the first 32-byte word of a word-aligned byte string. -/
theorem word_drop (x : Nat) (rest : Bytes) :
    (beBytes 32 x ++ rest).drop 32 = rest :=
  drop_append_of_length rest (beBytes_length 32 x)

theorem two_pow_256_eq : (2 : Nat) ^ 256 = 256 ^ 32 := by norm_num

theorem bytesToNat_word (n : Nat) (h : n < 2 ^ 256) :
    bytesToNat (beBytes 32 n) = n :=
  bytesToNat_beBytes 32 n (two_pow_256_eq ▸ h)

/-!
Function selectors.  ethers computes each selector as the first four bytes
of the keccak-256 hash of the ABI signature string declared in the source;
they are fixed constants of those signatures, transcribed here.
-/

/-- Selector of `transfer(address,uint256)` (ERC-20); the source compares
against the literal `0xa9059cbb`. -/
def erc20TransferSelector : Bytes := [0xa9, 0x05, 0x9c, 0xbb]

/-- Selector of `transferFrom(address,address,uint256)` (ERC-721); the
source compares against the literal `0x23b872dd`. -/
def transferFromSelector : Bytes := [0x23, 0xb8, 0x72, 0xdd]

/-- Selector of `safeTransferFrom(address,address,uint256)` (ERC-721); the
source compares against the literal `0x42842e0e`. -/
def safeTransferFrom721Selector : Bytes := [0x42, 0x84, 0x2e, 0x0e]

/-- Selector of `safeTransferFrom(address,address,uint256,uint256,bytes)`
(ERC-1155); the source compares against the literal `0xf242432a`. -/
def safeTransferFrom1155Selector : Bytes := [0xf2, 0x42, 0x43, 0x2a]

/-- Selector of `execute(address,uint256,bytes)` (smart-wallet dispatch). -/
def executeSelector : Bytes := [0xb6, 0x1d, 0x27, 0xf6]

/-- Selector of `executeBatch((address,uint256,bytes)[])` (smart-wallet
batch dispatch). -/
def executeBatchSelector : Bytes := [0x34, 0xfc, 0xd5, 0xbe]

/-- Selector of `addOwnerAddress(address)`. -/
def addOwnerAddressSelector : Bytes := [0x0f, 0x0f, 0x3f, 0x24]

/-- Selector of `removeOwnerAtIndex(uint256,bytes)`. -/
def removeOwnerAtIndexSelector : Bytes := [0x72, 0xde, 0x3b, 0x5a]

/-- Selector of `setAddr(bytes32,address)` (ENS public resolver). -/
def setAddrSelector : Bytes := [0xd5, 0xfa, 0x2b, 0x00]

/-- Selector of `setOwner(bytes32,address)` (ENS registry). -/
def setOwnerSelector : Bytes := [0x5b, 0x0f, 0xc9, 0xc3]

/-- The `Call` interface of `coinbase-smart-wallet.ts`: one atomic contract
invocation `{ target, value, data }`. -/
structure Call where
  target : Nat
  value : Nat
  data : Bytes
deriving Repr, DecidableEq

/-- Source `createSendETHCall`: native transfer, empty payload. -/
def createSendETHCall (recipient : Nat) (amountWei : Nat) : Call :=
  { target := recipient, value := amountWei, data := [] }

/-- Source `createSendERC20Call`: ABI encoding of `transfer(recipient, amountWei)`
with the token contract as target. -/
def createSendERC20Call (tokenAddress recipient amountWei : Nat) : Call :=
  { target := tokenAddress
    value := 0
    data := erc20TransferSelector ++ beBytes 32 recipient ++ beBytes 32 amountWei }

/-- ABI padding: round a byte count up to a multiple of 32. -/
def pad32Len (n : Nat) : Nat := (n + 31) / 32 * 32

theorem le_pad32Len (n : Nat) : n ≤ pad32Len n := by
  unfold pad32Len
  omega

/-- Right-pad a dynamic `bytes` payload with zero bytes to a 32-byte
boundary, as ABI encoding does. -/
def zeroPadRight (b : Bytes) : Bytes :=
  b ++ List.replicate (pad32Len b.length - b.length) 0

theorem zeroPadRight_length (b : Bytes) :
    (zeroPadRight b).length = pad32Len b.length := by
  have := le_pad32Len b.length
  simp [zeroPadRight]
  omega

/-- ABI encoding of a dynamic `bytes` argument: a length word followed by
the zero-padded payload. -/
def encodeBytesArg (b : Bytes) : Bytes := beBytes 32 b.length ++ zeroPadRight b

/-- ABI encoding of one `(address target, uint256 value, bytes data)`
struct: three head words (the `bytes` head is the tail offset `0x60`)
followed by the `bytes` tail. -/
def encodeCallStruct (c : Call) : Bytes :=
  beBytes 32 c.target ++ beBytes 32 c.value ++ beBytes 32 96 ++ encodeBytesArg c.data

theorem encodeCallStruct_length (c : Call) :
    (encodeCallStruct c).length = 128 + pad32Len c.data.length := by
  simp [encodeCallStruct, encodeBytesArg, beBytes_length, zeroPadRight_length]
  omega

/-- Source `encodeExecuteCall`: ABI encoding of
`execute(call.target, call.value, call.data)`. -/
def encodeExecuteCall (call : Call) : Bytes :=
  executeSelector ++ encodeCallStruct call

/-- ABI encoding of a `Call[]` array body: for each element (the element
type is dynamic) a head word holding the element's tail offset, and the
concatenated tails.  `off` is the offset of the first tail, measured from
the start of the head section. -/
def encodeCallsAux : Nat → List Call → Bytes × Bytes
  | _, [] => ([], [])
  | off, c :: cs =>
    let t := encodeCallStruct c
    let p := encodeCallsAux (off + t.length) cs
    (beBytes 32 off ++ p.1, t ++ p.2)

theorem encodeCallsAux_heads_length (off : Nat) (cs : List Call) :
    (encodeCallsAux off cs).1.length = 32 * cs.length := by
  induction cs generalizing off with
  | nil => rfl
  | cons c cs ih =>
    simp [encodeCallsAux, beBytes_length, ih]
    omega

/-- Source `encodeExecuteBatchCall`: ABI encoding of `executeBatch(calls)` — the
selector, the offset word of the single dynamic argument, the array length
word, the element head words and the element tails. -/
def encodeExecuteBatchCall (calls : List Call) : Bytes :=
  let p := encodeCallsAux (32 * calls.length) calls
  executeBatchSelector ++ beBytes 32 32 ++ beBytes 32 calls.length ++ p.1 ++ p.2

/-!
ABI decoders.  These mirror what `ethers.Interface.decodeFunctionData`
does for the signatures the source decodes: check the selector, read the
argument words in sequence, follow the canonical tail layout, and reject
(return `none`) on any shape violation — an address word that does not fit
in 160 bits, a wrong payload length, a wrong tail offset.
-/

/-- Decoder for `transfer(address,uint256)` payloads, as invoked by the
source via `decodeFunctionData('transfer', call.data)`. -/
def decodeErc20Transfer (data : Bytes) : Option (Nat × Nat) :=
  if data.take 4 = erc20TransferSelector ∧ data.length = 68 then
    let rest := data.drop 4
    let recipient := bytesToNat (rest.take 32)
    if recipient < 2 ^ 160 then
      some (recipient, bytesToNat ((rest.drop 32).take 32))
    else none
  else none

/-- Decoder for `transferFrom(address,address,uint256)` payloads, as
invoked by the source via `decodeFunctionData('transferFrom', call.data)`.
Note it accepts only the `transferFrom` selector: on a payload built with
the `safeTransferFrom` selector `0x42842e0e` it fails, exactly as the
ethers call in the source throws there. -/
def decodeTransferFrom (data : Bytes) : Option (Nat × Nat × Nat) :=
  if data.take 4 = transferFromSelector ∧ data.length = 100 then
    let rest := data.drop 4
    let sender := bytesToNat (rest.take 32)
    let r1 := rest.drop 32
    let recipient := bytesToNat (r1.take 32)
    let r2 := r1.drop 32
    if sender < 2 ^ 160 ∧ recipient < 2 ^ 160 then
      some (sender, recipient, bytesToNat (r2.take 32))
    else none
  else none

/-- Decoder for `safeTransferFrom(address,address,uint256,uint256,bytes)`
payloads (ERC-1155), as invoked by the source via
`decodeFunctionData('safeTransferFrom', call.data)`. -/
def decodeSafeTransferFrom1155 (data : Bytes) :
    Option (Nat × Nat × Nat × Nat × Bytes) :=
  if data.take 4 = safeTransferFrom1155Selector ∧ 196 ≤ data.length then
    let rest := data.drop 4
    let sender := bytesToNat (rest.take 32)
    let r1 := rest.drop 32
    let recipient := bytesToNat (r1.take 32)
    let r2 := r1.drop 32
    let tokenId := bytesToNat (r2.take 32)
    let r3 := r2.drop 32
    let amount := bytesToNat (r3.take 32)
    let r4 := r3.drop 32
    let offWord := r4.take 32
    let r5 := r4.drop 32
    let len := bytesToNat (r5.take 32)
    let r6 := r5.drop 32
    if offWord = beBytes 32 160 ∧ sender < 2 ^ 160 ∧ recipient < 2 ^ 160 ∧
        data.length = 196 + pad32Len len then
      some (sender, recipient, tokenId, amount, r6.take len)
    else none
  else none

/-- Decoder for one `(address,uint256,bytes)` struct tail: reads the three
head words, follows the canonical `bytes` offset `0x60`, reads the `bytes`
length and payload, and returns the remaining input. -/
def decodeCallStruct (b : Bytes) : Option (Call × Bytes) :=
  if 128 ≤ b.length then
    let tgt := bytesToNat (b.take 32)
    let b1 := b.drop 32
    let v := bytesToNat (b1.take 32)
    let b2 := b1.drop 32
    let offWord := b2.take 32
    let b3 := b2.drop 32
    let len := bytesToNat (b3.take 32)
    let b4 := b3.drop 32
    if offWord = beBytes 32 96 ∧ tgt < 2 ^ 160 ∧ pad32Len len ≤ b4.length then
      some ({ target := tgt, value := v, data := b4.take len }, b4.drop (pad32Len len))
    else none
  else none

/-- Decoder for `k` consecutive array elements: each head word must hold
the canonical offset of its tail, and the tails are consumed in order.
Succeeds only if the whole input is consumed. -/
def decodeCallsSeq : Nat → Nat → Bytes → Bytes → Option (List Call)
  | _, 0, heads, tails => if heads = [] ∧ tails = [] then some [] else none
  | off, k + 1, heads, tails =>
    if heads.take 32 = beBytes 32 off then
      match decodeCallStruct tails with
      | some (c, rest) =>
        match decodeCallsSeq (off + (128 + pad32Len c.data.length)) k
            (heads.drop 32) rest with
        | some cs => some (c :: cs)
        | none => none
      | none => none
    else none

/-- Decoder for `executeBatch((address,uint256,bytes)[])` payloads:
selector, argument offset word, array length word, then the element heads
and tails. -/
def decodeExecuteBatchCall (data : Bytes) : Option (List Call) :=
  if data.take 4 = executeBatchSelector ∧ 68 ≤ data.length then
    let rest := data.drop 4
    if rest.take 32 = beBytes 32 32 then
      let rest1 := rest.drop 32
      let n := bytesToNat (rest1.take 32)
      let body := rest1.drop 32
      decodeCallsSeq (32 * n) n (body.take (32 * n)) (body.drop (32 * n))
    else none
  else none

/-- A call whose components fit their declared ABI types. -/
def ValidCall (c : Call) : Prop :=
  c.target < 2 ^ 160 ∧ c.value < 2 ^ 256 ∧ c.data.length < 2 ^ 256

instance (c : Call) : Decidable (ValidCall c) := by
  unfold ValidCall
  infer_instance

theorem decodeCallStruct_encode (c : Call) (rest : Bytes) (h : ValidCall c) :
    decodeCallStruct (encodeCallStruct c ++ rest) = some (c, rest) := by
  obtain ⟨ht, hv, hd⟩ := h
  have hzp := zeroPadRight_length c.data
  have hpad := le_pad32Len c.data.length
  have hB : encodeCallStruct c ++ rest
      = beBytes 32 c.target ++ (beBytes 32 c.value ++ (beBytes 32 96 ++
        (beBytes 32 c.data.length ++ (zeroPadRight c.data ++ rest)))) := by
    simp [encodeCallStruct, encodeBytesArg, List.append_assoc]
  have hdata : (zeroPadRight c.data ++ rest).take c.data.length = c.data := by
    rw [zeroPadRight, List.append_assoc]
    exact take_append_of_length _ rfl
  have hrest : (zeroPadRight c.data ++ rest).drop (pad32Len c.data.length) = rest :=
    drop_append_of_length rest hzp
  rw [hB]
  unfold decodeCallStruct
  simp only [word_take, word_drop]
  rw [bytesToNat_word c.target (lt_trans ht (by norm_num)),
    bytesToNat_word c.value hv, bytesToNat_word c.data.length hd, hdata, hrest]
  split
  · split
    · rfl
    · next hneg =>
        exact absurd ⟨trivial, ht, by rw [List.length_append, hzp]; omega⟩ hneg
  · next hneg =>
      exact absurd (by simp [beBytes_length]; omega) hneg

theorem decodeCallsSeq_encode (cs : List Call) (off : Nat)
    (h : ∀ c ∈ cs, ValidCall c) :
    decodeCallsSeq off cs.length (encodeCallsAux off cs).1
      (encodeCallsAux off cs).2 = some cs := by
  induction cs generalizing off with
  | nil => rfl
  | cons c cs ih =>
    have hc : ValidCall c := h c (by simp)
    have hcs : ∀ x ∈ cs, ValidCall x := fun x hx => h x (by simp [hx])
    simp only [encodeCallsAux, List.length_cons]
    rw [encodeCallStruct_length c]
    simp only [decodeCallsSeq, word_take, word_drop, if_pos rfl]
    rw [decodeCallStruct_encode c _ hc]
    simp only [ih _ hcs]
    simp

/-- Round trip for the batch encoding: `encodeExecuteBatchCall` loses no
information — the decoder recovers exactly the encoded call list. -/
theorem decodeExecuteBatchCall_encode (calls : List Call)
    (hval : ∀ c ∈ calls, ValidCall c) (hn : calls.length < 2 ^ 256) :
    decodeExecuteBatchCall (encodeExecuteBatchCall calls) = some calls := by
  have hsel : (executeBatchSelector).length = 4 := rfl
  have hheads := encodeCallsAux_heads_length (32 * calls.length) calls
  unfold decodeExecuteBatchCall encodeExecuteBatchCall
  simp only [List.append_assoc]
  rw [take_append_of_length _ hsel, drop_append_of_length _ hsel,
    word_take, word_drop, word_take, word_drop, bytesToNat_word _ hn,
    take_append_of_length _ hheads, drop_append_of_length _ hheads]
  split
  · split
    · exact decodeCallsSeq_encode calls (32 * calls.length) hval
    · next hneg => exact absurd rfl hneg
  · next hneg =>
      refine absurd ⟨rfl, ?_⟩ hneg
      simp [beBytes_length, List.length_append]
      omega

/-!
The Call Classifier: the selector dispatch of `createSmartWalletTransaction`
(lines 221–489 of the source) viewed as a classification function.  The
dispatch order is that of the source: ERC-721 selectors first, then the
ERC-1155 selector, then the ERC-20 selector; unknown selectors (and native
transfers, whose payload is empty) are passed through unclassified.
-/

inductive CallClassification where
  | nativeTransfer
  | fungibleTransfer (token recipient amount : Nat)
  | nonFungibleTransfer (collection sender recipient tokenId : Nat)
  | multiTokenTransfer (collection sender recipient tokenId amount : Nat) (extra : Bytes)
  | unknown
deriving Repr, DecidableEq

/-- Classify a call by its selector and decode its arguments, as the
source's pre-flight dispatch does.  `none` means a recognized selector
whose trailing arguments failed to decode. -/
def classifyCall (call : Call) : Option CallClassification :=
  if call.data = [] then some .nativeTransfer
  else
    let sel := call.data.take 4
    if sel = safeTransferFrom721Selector ∨ sel = transferFromSelector then
      (decodeTransferFrom call.data).map fun x =>
        .nonFungibleTransfer call.target x.1 x.2.1 x.2.2
    else if sel = safeTransferFrom1155Selector then
      (decodeSafeTransferFrom1155 call.data).map fun x =>
        .multiTokenTransfer call.target x.1 x.2.1 x.2.2.1 x.2.2.2.1 x.2.2.2.2
    else if sel = erc20TransferSelector then
      (decodeErc20Transfer call.data).map fun x =>
        .fungibleTransfer call.target x.1 x.2
    else some .unknown

/-!
Owner management (`createAddOwnerTransaction`, `createRemoveOwnerTransaction`).
-/

/-- ABI encoding of `addOwnerAddress(account)`. -/
def encodeAddOwnerAddress (account : Nat) : Bytes :=
  addOwnerAddressSelector ++ beBytes 32 account

/-- ABI encoding of `removeOwnerAtIndex(index, owner)`: the `uint256` head
word, the `bytes` head word (canonical tail offset `0x40`), then the
`bytes` tail. -/
def encodeRemoveOwnerAtIndex (index : Nat) (ownerBytes : Bytes) : Bytes :=
  removeOwnerAtIndexSelector ++ beBytes 32 index ++ beBytes 32 64 ++
    encodeBytesArg ownerBytes

/-- Modelled from the spec: the Call Classifier's `OwnerRemove` arm.  The
source encodes `removeOwnerAtIndex(uint256,bytes)` (ABI declared at line 26
of `coinbase-smart-wallet.ts`) but contains no decoder for it; this decoder
follows the spec's `CallClassification::OwnerRemove{index, ownerBytes}` and
the standard ABI layout of that declared signature. -/
def decodeRemoveOwnerAtIndex (data : Bytes) : Option (Nat × Bytes) :=
  if data.take 4 = removeOwnerAtIndexSelector ∧ 100 ≤ data.length then
    let rest := data.drop 4
    let index := bytesToNat (rest.take 32)
    let r1 := rest.drop 32
    if r1.take 32 = beBytes 32 64 then
      let r2 := r1.drop 32
      let len := bytesToNat (r2.take 32)
      let r3 := r2.drop 32
      if data.length = 100 + pad32Len len then
        some (index, r3.take len)
      else none
    else none
  else none

/-!
ENS manager (`ens-manager.ts`).
-/

/-- ENS registry address (`ENS_CONTRACTS.REGISTRY`). -/
def ENS_REGISTRY : Nat := 0x00000000000C2E074eC69A0dFb2997BA6C7d2e1e

/-- ENS `.eth` base registrar address (`ENS_CONTRACTS.BASE_REGISTRAR`). -/
def ENS_BASE_REGISTRAR : Nat := 0x57f1887a8BF19b14fC0dF6Fd9B2acc9Af147eA85

/-- ENS public resolver address (`ENS_CONTRACTS.PUBLIC_RESOLVER`). -/
def ENS_PUBLIC_RESOLVER : Nat := 0x231b0Ee14048e9dCcD1d247744d114a4EB5E8E63

/-- ENS name wrapper address (`ENS_CONTRACTS.NAME_WRAPPER`). -/
def ENS_NAME_WRAPPER : Nat := 0xD4416b13d2b3a9aBae7AcD5D6C2BbDBE25686401

/-- Source `isENSContract` (ens-manager): the collection is the base registrar or
the name wrapper.  Addresses are compared after lowercasing in the source;
in the numeric model that is plain equality. -/
def isENSContract (contractAddress : Nat) : Bool :=
  contractAddress = ENS_BASE_REGISTRAR ∨ contractAddress = ENS_NAME_WRAPPER

/-- Source `isWrappedENS`: the collection is the name wrapper. -/
def isWrappedENS (contractAddress : Nat) : Bool :=
  contractAddress = ENS_NAME_WRAPPER

/-- Namehash of `.eth`, hard-coded in the source. -/
def ethNamehash : Nat :=
  0x93cdeb708b7545dc668eb9280176169d1c33cfd8ed6f04690a0bcc88a93fc4ae

/-- Source `tokenIdToNamehash`: `keccak256(ethNamehash ++ zeroPad32 tokenId)`.
`keccak` is the ethers library primitive, passed in as a parameter. -/
def tokenIdToNamehash (keccak : Bytes → Nat) (tokenId : Nat) : Nat :=
  keccak (beBytes 32 ethNamehash ++ beBytes 32 tokenId)

/-- ABI encoding of `setAddr(node, addr)` (ENS public resolver). -/
def encodeSetAddr (node addr : Nat) : Bytes :=
  setAddrSelector ++ beBytes 32 node ++ beBytes 32 addr

/-- ABI encoding of `setOwner(node, owner)` (ENS registry). -/
def encodeSetOwner (node owner : Nat) : Bytes :=
  setOwnerSelector ++ beBytes 32 node ++ beBytes 32 owner

/-- ABI encoding of ERC-721 `safeTransferFrom(sender, recipient, tokenId)`. -/
def encodeSafeTransferFrom721 (sender recipient tokenId : Nat) : Bytes :=
  safeTransferFrom721Selector ++ beBytes 32 sender ++ beBytes 32 recipient ++
    beBytes 32 tokenId

/-- ABI encoding of ERC-1155
`safeTransferFrom(sender, recipient, tokenId, amount, extra)`. -/
def encodeSafeTransferFrom1155 (sender recipient tokenId amount : Nat)
    (extra : Bytes) : Bytes :=
  safeTransferFrom1155Selector ++ beBytes 32 sender ++ beBytes 32 recipient ++
    beBytes 32 tokenId ++ beBytes 32 amount ++ beBytes 32 160 ++
    encodeBytesArg extra

/-- The `ensInfo` argument of `createENSTransferCalls`: the resolver and
registry-owner fields of the queried ENS info (`null` is `none`, the zero
address is `some 0`). -/
structure ENSTransferInfo where
  resolver : Option Nat
  registryOwner : Option Nat
deriving Repr, DecidableEq

/-- Source `createENSTransferCalls`: wrapped names give a single ERC-1155 transfer
call on the name wrapper (amount 1, empty extra data); unwrapped names give
the ordered plan — `setAddr` on the resolver when one is registered and
non-zero, `setOwner` on the registry, and the mandatory ERC-721
`safeTransferFrom` on the base registrar. -/
def createENSTransferCalls (keccak : Bytes → Nat) (contractAddress : Nat)
    (tokenId currentOwner newOwner : Nat) (ensInfo : ENSTransferInfo) :
    List Call :=
  if isWrappedENS contractAddress then
    [{ target := ENS_NAME_WRAPPER
       value := 0
       data := encodeSafeTransferFrom1155 currentOwner newOwner tokenId 1 [] }]
  else
    let node := tokenIdToNamehash keccak tokenId
    let step1 : List Call :=
      match ensInfo.resolver with
      | some r =>
        if r ≠ 0 then
          [{ target := r, value := 0, data := encodeSetAddr node newOwner }]
        else []
      | none => []
    step1 ++
      [{ target := ENS_REGISTRY, value := 0, data := encodeSetOwner node newOwner },
       { target := ENS_BASE_REGISTRAR
         value := 0
         data := encodeSafeTransferFrom721 currentOwner newOwner tokenId }]

/-- Source `createNFTTransferCall` (nft transfer module): ERC-1155 transfer for
wrapped ENS, plain ERC-721 `safeTransferFrom` otherwise. -/
def createNFTTransferCall (nftContractAddress fromAddress toAddress tokenId : Nat) :
    Call :=
  if isWrappedENS nftContractAddress then
    { target := nftContractAddress
      value := 0
      data := encodeSafeTransferFrom1155 fromAddress toAddress tokenId 1 [] }
  else
    { target := nftContractAddress
      value := 0
      data := encodeSafeTransferFrom721 fromAddress toAddress tokenId }

/-!
The network oracle and the transaction pipeline
(`createSmartWalletTransaction`, `createSmartWalletBatchTransaction`,
`createNFTTransferTransaction`).
-/

/-- The fee data returned by `provider.getFeeData()`; either field may be
`null`. -/
structure FeeData where
  maxFeePerGas : Option Nat
  maxPriorityFeePerGas : Option Nat
deriving Repr, DecidableEq

/-- One network call issued by the pipeline, for stating trace properties. -/
inductive NetCall where
  | getCode (address : Nat)
  | isOwnerAddressQuery (wallet owner : Nat)
  | ownerOfQuery (contract tokenId : Nat)
  | erc20BalanceOfQuery (token account : Nat)
  | erc20SymbolQuery (token : Nat)
  | erc20DecimalsQuery (token : Nat)
  | erc1155BalanceOfQuery (token account tokenId : Nat)
  | ethCallQuery (sender target : Nat) (data : Bytes)
  | getTransactionCountQuery (address : Nat)
  | getFeeDataQuery
  | estimateGasQuery (sender target : Nat) (data : Bytes) (value : Nat)
  | getBalanceQuery (address : Nat)
  | registrarOwnerOfQuery (tokenId : Nat)
  | registryOwnerQuery (node : Nat)
  | registryResolverQuery (node : Nat)
  | resolverAddrQuery (resolver node : Nat)
deriving Repr, DecidableEq

/-- The ethers provider (together with the contract objects built over it)
as an oracle of pure response functions.  A query that can reject returns
`Except Unit`. -/
structure Provider where
  getCode : Nat → Bytes
  isOwnerAddress : Nat → Nat → Except Unit Bool
  ownerOf : Nat → Nat → Except Unit Nat
  erc20BalanceOf : Nat → Nat → Except Unit Nat
  erc20Symbol : Nat → Except Unit String
  erc20Decimals : Nat → Except Unit Nat
  erc1155BalanceOf : Nat → Nat → Nat → Except Unit Nat
  ethCall : Nat → Nat → Bytes → Except Unit Bytes
  getTransactionCount : Nat → Nat
  getFeeData : FeeData
  estimateGas : Nat → Nat → Bytes → Nat → Except Unit Nat
  getBalance : Nat → Nat
  registrarOwnerOf : Nat → Except Unit Nat
  registryOwner : Nat → Except Unit Nat
  registryResolver : Nat → Except Unit Nat
  resolverAddr : Nat → Nat → Except Unit Nat

/-- The unsigned EIP-1559 transaction request returned by the pipeline.
`toAddress` is the `to` field of the ethers `TransactionRequest` (`to` is a
reserved word here). -/
structure TransactionRequest where
  toAddress : Nat
  value : Nat
  data : Bytes
  nonce : Nat
  chainId : Nat
  txType : Nat
  maxFeePerGas : Option Nat
  maxPriorityFeePerGas : Option Nat
  gasLimit : Nat
deriving Repr, DecidableEq

/-- The fatal errors thrown by the pipeline, one constructor per `throw`
site of the source. -/
inductive TxError where
  | accountNotDeployed (chain : String)
  | notOwner (owner wallet : Nat)
  | nftOwnershipMismatch (owner wallet : Nat)
  | nftOwnershipUnverifiable (tokenId : Nat)
  | nftTransferWouldFail
  | erc1155InsufficientBalance (balance required : Nat)
  | erc1155BalanceUnverifiable (tokenId : Nat)
  | erc1155TransferWouldFail
  | erc20InsufficientBalance (balance required : Nat)
  | erc20TransferWouldFail
  | gasEstimationFailed
  | insufficientGasFunds (required available : Nat)
  | ensInfoUnavailable
deriving Repr, DecidableEq

/-- The chain name interpolated into the account-not-deployed message:
`chainId === 1 ? 'Ethereum' : chainId === 8453 ? 'Base' : 'Chain id'`. -/
def chainName (chainId : Nat) : String :=
  if chainId = 1 then "Ethereum"
  else if chainId = 8453 then "Base"
  else "Chain " ++ toString chainId

/-- Source `createRemoveOwnerTransaction`: builds the call that removes the owner
at `ownerIndex`, encoding `removeOwnerAtIndex` with both the index and the
owner bytes.  (`provider`, `ownerAddress` and `chainId` are accepted and
unused, as in the source.) -/
def createRemoveOwnerTransaction (p : Provider)
    (smartWalletAddress ownerAddress : Nat)
    (ownerIndex : Nat) (ownerBytes : Bytes) (chainId : Nat) : Call :=
  { target := smartWalletAddress
    value := 0
    data := encodeRemoveOwnerAtIndex ownerIndex ownerBytes }

/-- Source `isOwner`: queries `isOwnerAddress` on the wallet contract; any thrown
error is caught and reported as `false`. -/
def isOwner (p : Provider) (smartWalletAddress ownerAddress : Nat) : Bool :=
  match p.isOwnerAddress smartWalletAddress ownerAddress with
  | .ok result => result
  | .error _ => false

/-- The pre-flight checks of `createSmartWalletTransaction` (source lines
221–490).  Returns the fatal error if one is thrown, and the network calls
issued.  Mirrors the source's try/catch structure: a decode failure on a
recognized selector is caught by the enclosing catch (its message carries
no rethrow marker) and only warned about, so it produces no error; the
from-address mismatch checks only warn. -/
def preflightChecks (p : Provider) (smartWalletAddress : Nat) (call : Call) :
    Option TxError × List NetCall :=
  if call.target ≠ smartWalletAddress ∧ call.data ≠ [] then
    let sel := call.data.take 4
    if sel = safeTransferFrom721Selector ∨ sel = transferFromSelector then
      match decodeTransferFrom call.data with
      | none => (none, [])
      | some (_sender, _recipient, tokenId) =>
        match p.ownerOf call.target tokenId with
        | .error _ =>
          (some (.nftOwnershipUnverifiable tokenId),
           [.ownerOfQuery call.target tokenId])
        | .ok owner =>
          if owner ≠ smartWalletAddress then
            (some (.nftOwnershipMismatch owner smartWalletAddress),
             [.ownerOfQuery call.target tokenId])
          else
            match p.ethCall smartWalletAddress call.target call.data with
            | .error _ =>
              (some .nftTransferWouldFail,
               [.ownerOfQuery call.target tokenId,
                .ethCallQuery smartWalletAddress call.target call.data])
            | .ok _ =>
              (none,
               [.ownerOfQuery call.target tokenId,
                .ethCallQuery smartWalletAddress call.target call.data])
    else if sel = safeTransferFrom1155Selector then
      match decodeSafeTransferFrom1155 call.data with
      | none => (none, [])
      | some (_sender, _recipient, tokenId, amount, _extra) =>
        match p.erc1155BalanceOf call.target smartWalletAddress tokenId with
        | .error _ =>
          (some (.erc1155BalanceUnverifiable tokenId),
           [.erc1155BalanceOfQuery call.target smartWalletAddress tokenId])
        | .ok balance =>
          if balance < amount then
            (some (.erc1155InsufficientBalance balance amount),
             [.erc1155BalanceOfQuery call.target smartWalletAddress tokenId])
          else
            match p.ethCall smartWalletAddress call.target call.data with
            | .error _ =>
              (some .erc1155TransferWouldFail,
               [.erc1155BalanceOfQuery call.target smartWalletAddress tokenId,
                .ethCallQuery smartWalletAddress call.target call.data])
            | .ok _ =>
              (none,
               [.erc1155BalanceOfQuery call.target smartWalletAddress tokenId,
                .ethCallQuery smartWalletAddress call.target call.data])
    else if sel = erc20TransferSelector then
      let tokenBalance :=
        match p.erc20BalanceOf call.target smartWalletAddress with
        | .ok b => b
        | .error _ => 0
      let infoTrace : List NetCall :=
        [.erc20BalanceOfQuery call.target smartWalletAddress,
         .erc20SymbolQuery call.target, .erc20DecimalsQuery call.target]
      match decodeErc20Transfer call.data with
      | none => (none, infoTrace)
      | some (_recipient, transferAmount) =>
        if tokenBalance < transferAmount then
          (some (.erc20InsufficientBalance tokenBalance transferAmount), infoTrace)
        else
          match p.ethCall smartWalletAddress call.target call.data with
          | .error _ =>
            (some .erc20TransferWouldFail,
             infoTrace ++ [.ethCallQuery smartWalletAddress call.target call.data])
          | .ok _ =>
            (none,
             infoTrace ++ [.ethCallQuery smartWalletAddress call.target call.data])
    else (none, [])
  else (none, [])

/-- The assembly stage of `createSmartWalletTransaction` (source lines
492–567): encode the `execute` dispatch, fetch nonce and fee data, estimate
gas — aborting on failure — apply the 1.5× buffer, and check the owner's
balance against the worst-case cost. -/
def assembleSingle (p : Provider) (smartWalletAddress ownerAddress : Nat)
    (call : Call) (chainId : Nat) :
    Except TxError TransactionRequest × List NetCall :=
  let data := encodeExecuteCall call
  let nonce := p.getTransactionCount ownerAddress
  let feeData := p.getFeeData
  let tr0 : List NetCall :=
    [.getTransactionCountQuery ownerAddress, .getFeeDataQuery]
  match p.estimateGas ownerAddress smartWalletAddress data 0 with
  | .error _ =>
    (.error .gasEstimationFailed,
     tr0 ++ [.estimateGasQuery ownerAddress smartWalletAddress data 0])
  | .ok rawGas =>
    let gasLimit := rawGas * 150 / 100
    let ownerBalance := p.getBalance ownerAddress
    let tr1 := tr0 ++ [.estimateGasQuery ownerAddress smartWalletAddress data 0,
      .getBalanceQuery ownerAddress]
    let maxCost := gasLimit * feeData.maxFeePerGas.getD 0
    if ownerBalance < maxCost then
      (.error (.insufficientGasFunds maxCost ownerBalance), tr1)
    else
      (.ok { toAddress := smartWalletAddress, value := 0, data := data, nonce := nonce,
             chainId := chainId, txType := 2,
             maxFeePerGas := feeData.maxFeePerGas,
             maxPriorityFeePerGas := feeData.maxPriorityFeePerGas,
             gasLimit := gasLimit }, tr1)

/-- Source `createSmartWalletTransaction`: bytecode existence check, ownership
check, pre-flight checks, then assembly. -/
def createSmartWalletTransaction (p : Provider)
    (smartWalletAddress ownerAddress : Nat) (call : Call) (chainId : Nat) :
    Except TxError TransactionRequest × List NetCall :=
  if p.getCode smartWalletAddress = [] then
    (.error (.accountNotDeployed (chainName chainId)),
     [.getCode smartWalletAddress])
  else
    let tr1 : List NetCall :=
      [.getCode smartWalletAddress,
       .isOwnerAddressQuery smartWalletAddress ownerAddress]
    if isOwner p smartWalletAddress ownerAddress then
      match preflightChecks p smartWalletAddress call with
      | (some e, tf) => (.error e, tr1 ++ tf)
      | (none, tf) =>
        let a := assembleSingle p smartWalletAddress ownerAddress call chainId
        (a.1, tr1 ++ tf ++ a.2)
    else (.error (.notOwner ownerAddress smartWalletAddress), tr1)

/-- The gas limit used by `createSmartWalletBatchTransaction`: the buffered
estimate when estimation succeeds, the hard-coded default `300000` when it
throws (the failure is only warned about). -/
def batchGasLimit (p : Provider) (ownerAddress smartWalletAddress : Nat)
    (data : Bytes) : Nat :=
  match p.estimateGas ownerAddress smartWalletAddress data 0 with
  | .ok rawGas => rawGas * 150 / 100
  | .error _ => 300000

/-- Source `createSmartWalletBatchTransaction`: encodes the `executeBatch`
dispatch and assembles the transaction.  Note: no bytecode check, no
ownership check, no pre-flight checks, and gas-estimation failure falls
back to the default limit. -/
def createSmartWalletBatchTransaction (p : Provider)
    (smartWalletAddress ownerAddress : Nat) (calls : List Call)
    (chainId : Nat) : Except TxError TransactionRequest × List NetCall :=
  let data := encodeExecuteBatchCall calls
  let nonce := p.getTransactionCount ownerAddress
  let feeData := p.getFeeData
  let gasLimit := batchGasLimit p ownerAddress smartWalletAddress data
  let ownerBalance := p.getBalance ownerAddress
  let trace : List NetCall :=
    [.getTransactionCountQuery ownerAddress, .getFeeDataQuery,
     .estimateGasQuery ownerAddress smartWalletAddress data 0,
     .getBalanceQuery ownerAddress]
  let maxCost := gasLimit * feeData.maxFeePerGas.getD 0
  if ownerBalance < maxCost then
    (.error (.insufficientGasFunds maxCost ownerBalance), trace)
  else
    (.ok { toAddress := smartWalletAddress, value := 0, data := data, nonce := nonce,
           chainId := chainId, txType := 2,
           maxFeePerGas := feeData.maxFeePerGas,
           maxPriorityFeePerGas := feeData.maxPriorityFeePerGas,
           gasLimit := gasLimit }, trace)

/-- The ENS info record returned by `getENSInfo`. -/
structure ENSInfo where
  tokenOwner : Nat
  registryOwner : Option Nat
  ethRecord : Option Nat
  resolver : Option Nat
deriving Repr, DecidableEq

/-- Source `getENSInfo`: wrapped names return an empty record without querying;
unwrapped names query the registrar owner, registry owner and resolver
together (a failure of any rejects), then best-effort read the resolver's
address record when the resolver is non-zero. -/
def getENSInfo (keccak : Bytes → Nat) (p : Provider) (tokenId : Nat)
    (isWrapped : Bool) : Except Unit ENSInfo × List NetCall :=
  if isWrapped then
    (.ok { tokenOwner := 0, registryOwner := none, ethRecord := none,
           resolver := none }, [])
  else
    let node := tokenIdToNamehash keccak tokenId
    let tr0 : List NetCall := [.registrarOwnerOfQuery tokenId,
      .registryOwnerQuery node, .registryResolverQuery node]
    match p.registrarOwnerOf tokenId, p.registryOwner node,
        p.registryResolver node with
    | .ok tokenOwner, .ok regOwner, .ok resolverAddress =>
      if resolverAddress ≠ 0 then
        let ethRecord :=
          match p.resolverAddr resolverAddress node with
          | .ok a => some a
          | .error _ => none
        (.ok { tokenOwner := tokenOwner, registryOwner := some regOwner,
               ethRecord := ethRecord, resolver := some resolverAddress },
         tr0 ++ [.resolverAddrQuery resolverAddress node])
      else
        (.ok { tokenOwner := tokenOwner, registryOwner := some regOwner,
               ethRecord := none, resolver := some resolverAddress }, tr0)
    | _, _, _ => (.error (), tr0)

/-- Source `createNFTTransferTransaction`: ENS collections go through the ENS
planner and then the single-call path (one planned call) or the batch path
(more); other collections go through the single-call path directly. -/
def createNFTTransferTransaction (keccak : Bytes → Nat) (p : Provider)
    (smartWalletAddress ownerAddress nftContractAddress toAddress : Nat)
    (tokenId : Nat) (chainId : Nat) :
    Except TxError TransactionRequest × List NetCall :=
  if isENSContract nftContractAddress then
    let isWrapped := isWrappedENS nftContractAddress
    match getENSInfo keccak p tokenId isWrapped with
    | (.error _, tr) => (.error .ensInfoUnavailable, tr)
    | (.ok info, tr) =>
      let calls := createENSTransferCalls keccak nftContractAddress tokenId
        smartWalletAddress toAddress
        { resolver := info.resolver, registryOwner := info.registryOwner }
      if calls.length = 1 then
        let a := createSmartWalletTransaction p smartWalletAddress ownerAddress
          (calls.headD { target := 0, value := 0, data := [] }) chainId
        (a.1, tr ++ a.2)
      else
        let a := createSmartWalletBatchTransaction p smartWalletAddress
          ownerAddress calls chainId
        (a.1, tr ++ a.2)
  else
    createSmartWalletTransaction p smartWalletAddress ownerAddress
      (createNFTTransferCall nftContractAddress smartWalletAddress toAddress
        tokenId) chainId

/-!
Concrete oracles used to witness the theorems on concrete inputs.
-/

/-- An oracle on which every query succeeds. -/
def okProvider : Provider where
  getCode := fun _ => [0x60]
  isOwnerAddress := fun _ _ => .ok true
  ownerOf := fun _ _ => .ok 1
  erc20BalanceOf := fun _ _ => .ok 1000000
  erc20Symbol := fun _ => .ok "TOK"
  erc20Decimals := fun _ => .ok 18
  erc1155BalanceOf := fun _ _ _ => .ok 5
  ethCall := fun _ _ _ => .ok []
  getTransactionCount := fun _ => 7
  getFeeData := { maxFeePerGas := some 10, maxPriorityFeePerGas := some 1 }
  estimateGas := fun _ _ _ _ => .ok 1000
  getBalance := fun _ => 1000000000000000000
  registrarOwnerOf := fun _ => .ok 1
  registryOwner := fun _ => .ok 1
  registryResolver := fun _ => .ok 5
  resolverAddr := fun _ _ => .ok 9

/-!
Inversion lemmas for the two assembly paths.
-/

theorem assembleSingle_ok {p : Provider} {w o : Nat} {call : Call} {cid : Nat}
    {plan : TransactionRequest} {ta : List NetCall}
    (h : assembleSingle p w o call cid = (.ok plan, ta)) :
    plan.toAddress = w ∧ plan.data = encodeExecuteCall call ∧
    plan.maxFeePerGas = p.getFeeData.maxFeePerGas ∧
    plan.gasLimit * plan.maxFeePerGas.getD 0 ≤ p.getBalance o := by
  unfold assembleSingle at h
  dsimp only at h
  split at h
  · simp at h
  · split at h
    · simp at h
    · next hlt =>
        simp only [Prod.mk.injEq, Except.ok.injEq] at h
        obtain ⟨hplan, -⟩ := h
        subst hplan
        exact ⟨rfl, rfl, rfl, Nat.le_of_not_lt hlt⟩

theorem assembleSingle_insufficient {p : Provider} {w o : Nat} {call : Call}
    {cid : Nat} {req avail : Nat} {ta : List NetCall}
    (h : assembleSingle p w o call cid
      = (.error (.insufficientGasFunds req avail), ta)) :
    avail = p.getBalance o ∧ avail < req := by
  unfold assembleSingle at h
  dsimp only at h
  split at h
  · simp at h
  · split at h
    · next hlt =>
        simp only [Prod.mk.injEq, Except.error.injEq,
          TxError.insufficientGasFunds.injEq] at h
        obtain ⟨⟨hreq, havail⟩, -⟩ := h
        subst hreq
        subst havail
        exact ⟨rfl, hlt⟩
    · simp at h

theorem batch_ok {p : Provider} {w o : Nat} {calls : List Call} {cid : Nat}
    {plan : TransactionRequest} {tr : List NetCall}
    (h : createSmartWalletBatchTransaction p w o calls cid = (.ok plan, tr)) :
    plan.toAddress = w ∧ plan.data = encodeExecuteBatchCall calls ∧
    plan.maxFeePerGas = p.getFeeData.maxFeePerGas ∧
    plan.gasLimit = batchGasLimit p o w (encodeExecuteBatchCall calls) ∧
    plan.gasLimit * plan.maxFeePerGas.getD 0 ≤ p.getBalance o := by
  unfold createSmartWalletBatchTransaction at h
  dsimp only at h
  split at h
  · simp at h
  · next hlt =>
      simp only [Prod.mk.injEq, Except.ok.injEq] at h
      obtain ⟨hplan, -⟩ := h
      subst hplan
      exact ⟨rfl, rfl, rfl, rfl, Nat.le_of_not_lt hlt⟩

theorem batch_insufficient {p : Provider} {w o : Nat} {calls : List Call}
    {cid : Nat} {req avail : Nat}
    (h : (createSmartWalletBatchTransaction p w o calls cid).1
      = .error (.insufficientGasFunds req avail)) :
    avail = p.getBalance o ∧ avail < req := by
  unfold createSmartWalletBatchTransaction at h
  dsimp only at h
  split at h
  · next hlt =>
      simp only [Except.error.injEq, TxError.insufficientGasFunds.injEq] at h
      obtain ⟨hreq, havail⟩ := h
      subst hreq
      subst havail
      exact ⟨rfl, hlt⟩
  · simp at h

set_option maxHeartbeats 1000000 in
/-- The pre-flight stage never reports an insufficient-gas-funds error:
that error belongs to the assembly stage alone. -/
theorem preflight_no_gas_error (p : Provider) (w : Nat) (call : Call)
    (req avail : Nat) :
    (preflightChecks p w call).1 ≠ some (.insufficientGasFunds req avail) := by
  unfold preflightChecks
  repeat' split
  all_goals simp [apply_ite Prod.fst]
  all_goals intros
  all_goals split_ifs <;> simp

theorem single_ok {p : Provider} {w o : Nat} {call : Call} {cid : Nat}
    {plan : TransactionRequest} {tr : List NetCall}
    (h : createSmartWalletTransaction p w o call cid = (.ok plan, tr)) :
    ∃ ta, assembleSingle p w o call cid = (.ok plan, ta) := by
  unfold createSmartWalletTransaction at h
  dsimp only at h
  split at h
  · simp at h
  · split at h
    · split at h
      · simp at h
      · simp only [Prod.mk.injEq] at h
        exact ⟨(assembleSingle p w o call cid).2,
          Prod.ext h.1 rfl⟩
    · simp at h

theorem single_insufficient {p : Provider} {w o : Nat} {call : Call}
    {cid : Nat} {req avail : Nat}
    (h : (createSmartWalletTransaction p w o call cid).1
      = .error (.insufficientGasFunds req avail)) :
    avail = p.getBalance o ∧ avail < req := by
  unfold createSmartWalletTransaction at h
  dsimp only at h
  split at h
  · simp at h
  · split at h
    · split at h
      · next e tf hpre =>
          simp only at h
          have he : e = .insufficientGasFunds req avail := by simpa using h
          exact absurd (by rw [hpre, he])
            (preflight_no_gas_error p w call req avail)
      · next tf hpre =>
          simp only at h
          exact assembleSingle_insufficient
            (Prod.ext h (rfl : (assembleSingle p w o call cid).2 = _))
    · simp at h

/-!
The claims.
-/

/-- C9: every transaction request returned by either assembly path
satisfies `gasLimit * maxFeePerGas ≤ owner balance` as read at assembly
time, and when the pipeline instead fails with the insufficient-gas-funds
error, that error names the required worst-case cost and the available
balance (with available < required); an error means no plan is returned. -/
theorem c9_gas_funds_invariant (p : Provider) (w o : Nat) (call : Call)
    (calls : List Call) (cid : Nat) :
    (∀ plan tr, createSmartWalletTransaction p w o call cid = (.ok plan, tr) →
      plan.gasLimit * plan.maxFeePerGas.getD 0 ≤ p.getBalance o)
  ∧ (∀ plan tr,
      createSmartWalletBatchTransaction p w o calls cid = (.ok plan, tr) →
      plan.gasLimit * plan.maxFeePerGas.getD 0 ≤ p.getBalance o)
  ∧ (∀ req avail, (createSmartWalletTransaction p w o call cid).1
        = .error (.insufficientGasFunds req avail) →
      avail = p.getBalance o ∧ avail < req)
  ∧ (∀ req avail, (createSmartWalletBatchTransaction p w o calls cid).1
        = .error (.insufficientGasFunds req avail) →
      avail = p.getBalance o ∧ avail < req) := by
  refine ⟨?_, ?_, ?_, ?_⟩
  · intro plan tr h
    obtain ⟨ta, ha⟩ := single_ok h
    exact (assembleSingle_ok ha).2.2.2
  · intro plan tr h
    exact (batch_ok h).2.2.2.2
  · intro req avail h
    exact single_insufficient h
  · intro req avail h
    exact batch_insufficient h

theorem c9_gas_funds_invariant_witness :
    ((1500 : Nat) * (Option.getD (some 10) 0) ≤ okProvider.getBalance 2)
  ∧ ((3 : Nat) = ({ okProvider with getBalance := fun _ => 3 } : Provider).getBalance 2
      ∧ (3 : Nat) < 15000) :=
  ⟨by
    have h := (c9_gas_funds_invariant okProvider 1 2
      { target := 3, value := 0, data := [] } [] 1).1
      { toAddress := 1, value := 0,
        data := encodeExecuteCall { target := 3, value := 0, data := [] },
        nonce := 7, chainId := 1, txType := 2, maxFeePerGas := some 10,
        maxPriorityFeePerGas := some 1, gasLimit := 1500 }
      [.getCode 1, .isOwnerAddressQuery 1 2, .getTransactionCountQuery 2,
       .getFeeDataQuery,
       .estimateGasQuery 2 1 (encodeExecuteCall { target := 3, value := 0, data := [] }) 0,
       .getBalanceQuery 2]
      rfl
    exact h,
   by
    have h := (c9_gas_funds_invariant
      ({ okProvider with getBalance := fun _ => 3 } : Provider) 1 2
      { target := 3, value := 0, data := [] } [] 1).2.2.1 15000 3 rfl
    exact h⟩

/-- C2 counterexample: on the batch path, a failing gas estimation does not
abort — it silently falls back to the default limit 300000.  The oracle
below rejects every `estimateGas` query, the encoded batch payload is
non-empty, and assembly still returns a plan with `gasLimit = 300000`. -/
theorem c2_counterexample :
    ({ okProvider with estimateGas := fun _ _ _ _ => .error () } : Provider).estimateGas
        2 1 (encodeExecuteBatchCall [{ target := 3, value := 0, data := [1, 2, 3] }]) 0
      = .error ()
  ∧ encodeExecuteBatchCall [{ target := 3, value := 0, data := [1, 2, 3] }] ≠ []
  ∧ (createSmartWalletBatchTransaction
        ({ okProvider with estimateGas := fun _ _ _ _ => .error () } : Provider)
        1 2 [{ target := 3, value := 0, data := [1, 2, 3] }] 5).1
      = .ok { toAddress := 1, value := 0,
              data := encodeExecuteBatchCall [{ target := 3, value := 0, data := [1, 2, 3] }],
              nonce := 7, chainId := 5, txType := 2, maxFeePerGas := some 10,
              maxPriorityFeePerGas := some 1, gasLimit := 300000 } :=
  ⟨rfl, by decide, rfl⟩

/-- C2 (amended): the single-call assembly path aborts with the
gas-estimation-failed error whenever estimation fails; the batch assembly
path instead swallows the failure and uses the default gas limit 300000,
so any plan it returns after a failed estimation carries that default. -/
theorem c2_gas_estimation_failure_paths (p : Provider) (w o : Nat)
    (call : Call) (calls : List Call) (cid : Nat) (tf : List NetCall)
    (hcode : p.getCode w ≠ []) (hown : isOwner p w o = true)
    (hpre : preflightChecks p w call = (none, tf))
    (hest : p.estimateGas o w (encodeExecuteCall call) 0 = .error ())
    (hestB : p.estimateGas o w (encodeExecuteBatchCall calls) 0 = .error ()) :
    (createSmartWalletTransaction p w o call cid).1 = .error .gasEstimationFailed
  ∧ batchGasLimit p o w (encodeExecuteBatchCall calls) = 300000
  ∧ (∀ plan tr,
      createSmartWalletBatchTransaction p w o calls cid = (.ok plan, tr) →
      plan.gasLimit = 300000) := by
  refine ⟨?_, ?_, ?_⟩
  · unfold createSmartWalletTransaction
    rw [if_neg hcode, hown]
    simp only [if_true, hpre]
    unfold assembleSingle
    dsimp only
    rw [hest]
  · unfold batchGasLimit
    rw [hestB]
  · intro plan tr h
    rw [(batch_ok h).2.2.2.1]
    unfold batchGasLimit
    rw [hestB]

theorem c2_gas_estimation_failure_paths_witness :
    (createSmartWalletTransaction
        ({ okProvider with estimateGas := fun _ _ _ _ => .error () } : Provider)
        1 2 { target := 3, value := 0, data := [] } 1).1
      = .error .gasEstimationFailed
  ∧ batchGasLimit ({ okProvider with estimateGas := fun _ _ _ _ => .error () } : Provider)
      2 1 (encodeExecuteBatchCall [{ target := 3, value := 0, data := [1, 2, 3] }])
      = 300000 := by
  have h := c2_gas_estimation_failure_paths
    ({ okProvider with estimateGas := fun _ _ _ _ => .error () } : Provider)
    1 2 { target := 3, value := 0, data := [] }
    [{ target := 3, value := 0, data := [1, 2, 3] }] 1 []
    (by decide) rfl (by decide) rfl rfl
  exact ⟨h.1, h.2.1⟩

/-- C3 counterexample: the batch assembly path performs no bytecode
precondition check.  The oracle below reports empty bytecode at the
account, and the batch path still returns a plan, never issuing a
`getCode` query. -/
theorem c3_counterexample :
    ({ okProvider with getCode := fun _ => [] } : Provider).getCode 1 = []
  ∧ (createSmartWalletBatchTransaction
        ({ okProvider with getCode := fun _ => [] } : Provider)
        1 2 [{ target := 3, value := 0, data := [9] }] 5).1
      = .ok { toAddress := 1, value := 0,
              data := encodeExecuteBatchCall [{ target := 3, value := 0, data := [9] }],
              nonce := 7, chainId := 5, txType := 2, maxFeePerGas := some 10,
              maxPriorityFeePerGas := some 1, gasLimit := 1500 }
  ∧ NetCall.getCode 1 ∉ (createSmartWalletBatchTransaction
        ({ okProvider with getCode := fun _ => [] } : Provider)
        1 2 [{ target := 3, value := 0, data := [9] }] 5).2 :=
  ⟨rfl, rfl, by decide⟩

/-- C3 (amended): on the single-call assembly path an empty-bytecode reply
is fatal — the pipeline stops with the account-not-deployed error naming
the chain (derived from the chain id) and the bytecode query is the only
network call issued; the batch assembly path, however, performs no bytecode
precondition check at all and never issues a bytecode query. -/
theorem c3_account_deployment_check_paths (p : Provider) (w o : Nat)
    (call : Call) (calls : List Call) (cid a : Nat)
    (hcode : p.getCode w = []) :
    createSmartWalletTransaction p w o call cid
      = (.error (.accountNotDeployed (chainName cid)), [.getCode w])
  ∧ NetCall.getCode a ∉ (createSmartWalletBatchTransaction p w o calls cid).2 := by
  constructor
  · unfold createSmartWalletTransaction
    rw [if_pos hcode]
  · unfold createSmartWalletBatchTransaction
    dsimp only
    split <;> simp

theorem c3_account_deployment_check_paths_witness :
    createSmartWalletTransaction
        ({ okProvider with getCode := fun _ => [] } : Provider)
        1 2 { target := 3, value := 0, data := [9] } 5
      = (.error (.accountNotDeployed (chainName 5)), [.getCode 1])
  ∧ NetCall.getCode 1 ∉ (createSmartWalletBatchTransaction
        ({ okProvider with getCode := fun _ => [] } : Provider)
        1 2 [{ target := 3, value := 0, data := [9] }] 5).2 :=
  c3_account_deployment_check_paths
    ({ okProvider with getCode := fun _ => [] } : Provider)
    1 2 { target := 3, value := 0, data := [9] }
    [{ target := 3, value := 0, data := [9] }] 5 1 rfl

/-- When the pre-flight stage reports no error, the pipeline result is the
assembly-stage result. -/
theorem single_proceeds_of_preflight_none (p : Provider) (w o : Nat)
    (call : Call) (cid : Nat) (hcode : p.getCode w ≠ [])
    (hown : isOwner p w o = true)
    (hpre : (preflightChecks p w call).1 = none) :
    (createSmartWalletTransaction p w o call cid).1
      = (assembleSingle p w o call cid).1 := by
  unfold createSmartWalletTransaction
  rw [if_neg hcode, hown]
  simp only [if_true]
  rcases hp : preflightChecks p w call with ⟨e1, tf⟩
  rw [hp] at hpre
  simp only at hpre
  subst hpre
  rfl

/-- C5 counterexample: a call whose payload starts with the recognized
ERC-20 `transfer` selector but whose trailing arguments do not decode (the
payload is 5 bytes long) is not rejected: the pipeline logs a warning and
proceeds to assemble, returning a plan. -/
theorem c5_counterexample :
    ([0xa9, 0x05, 0x9c, 0xbb, 1] : Bytes).take 4 = erc20TransferSelector
  ∧ decodeErc20Transfer [0xa9, 0x05, 0x9c, 0xbb, 1] = none
  ∧ (createSmartWalletTransaction okProvider 1 2
        { target := 3, value := 0, data := [0xa9, 0x05, 0x9c, 0xbb, 1] } 1).1
      = .ok { toAddress := 1, value := 0,
              data := encodeExecuteCall
                { target := 3, value := 0, data := [0xa9, 0x05, 0x9c, 0xbb, 1] },
              nonce := 7, chainId := 1, txType := 2, maxFeePerGas := some 10,
              maxPriorityFeePerGas := some 1, gasLimit := 1500 } :=
  ⟨rfl, rfl, rfl⟩

/-- C5 (amended): on every recognized selector (ERC-20 transfer, ERC-721
transferFrom/safeTransferFrom, ERC-1155 safeTransferFrom), a failure to
decode the trailing arguments is caught and only warned about — the
pre-flight stage reports no error and the pipeline proceeds to assemble
the transaction; no malformed-call rejection exists. -/
theorem c5_malformed_decode_proceeds (p : Provider) (w o : Nat) (call : Call)
    (cid : Nat) (hcode : p.getCode w ≠ []) (hown : isOwner p w o = true)
    (htgt : call.target ≠ w)
    (hdec :
      ((call.data.take 4 = safeTransferFrom721Selector ∨
        call.data.take 4 = transferFromSelector) ∧
        decodeTransferFrom call.data = none)
      ∨ (call.data.take 4 = safeTransferFrom1155Selector ∧
          decodeSafeTransferFrom1155 call.data = none)
      ∨ (call.data.take 4 = erc20TransferSelector ∧
          decodeErc20Transfer call.data = none)) :
    (createSmartWalletTransaction p w o call cid).1
      = (assembleSingle p w o call cid).1 := by
  apply single_proceeds_of_preflight_none p w o call cid hcode hown
  have hne : call.data ≠ [] := by
    intro h0
    rcases hdec with ⟨hs | hs, -⟩ | ⟨hs, -⟩ | ⟨hs, -⟩ <;> rw [h0] at hs <;>
      simp [safeTransferFrom721Selector, transferFromSelector,
        safeTransferFrom1155Selector, erc20TransferSelector] at hs
  unfold preflightChecks
  rw [if_pos ⟨htgt, hne⟩]
  dsimp only
  rcases hdec with ⟨hs | hs, hd⟩ | ⟨hs, hd⟩ | ⟨hs, hd⟩ <;> rw [hs] <;>
    simp [hd, safeTransferFrom721Selector, transferFromSelector,
      safeTransferFrom1155Selector, erc20TransferSelector]

theorem c5_malformed_decode_proceeds_witness :
    (createSmartWalletTransaction okProvider 1 2
        { target := 3, value := 0, data := [0xa9, 0x05, 0x9c, 0xbb, 1] } 1).1
      = (assembleSingle okProvider 1 2
          { target := 3, value := 0, data := [0xa9, 0x05, 0x9c, 0xbb, 1] } 1).1 :=
  c5_malformed_decode_proceeds okProvider 1 2
    { target := 3, value := 0, data := [0xa9, 0x05, 0x9c, 0xbb, 1] } 1
    (by decide) rfl (by decide) (Or.inr (Or.inr ⟨rfl, rfl⟩))

theorem encodeSetAddr_length (node a : Nat) : (encodeSetAddr node a).length = 68 := by
  simp [encodeSetAddr, beBytes_length, setAddrSelector]

theorem encodeSetOwner_length (node a : Nat) :
    (encodeSetOwner node a).length = 68 := by
  simp [encodeSetOwner, beBytes_length, setOwnerSelector]

theorem encodeSafeTransferFrom721_length (x y z : Nat) :
    (encodeSafeTransferFrom721 x y z).length = 100 := by
  simp [encodeSafeTransferFrom721, beBytes_length, safeTransferFrom721Selector]

theorem encodeSafeTransferFrom1155_empty_length (a b c d : Nat) :
    (encodeSafeTransferFrom1155 a b c d []).length = 196 := by
  simp [encodeSafeTransferFrom1155, encodeBytesArg, beBytes_length,
    zeroPadRight_length, pad32Len, safeTransferFrom1155Selector]

/-- Every call emitted by the ENS planner has components in range, provided
the registered resolver address is in range. -/
theorem createENSTransferCalls_valid (keccak : Bytes → Nat)
    (contract tokenId cur new : Nat) (info : ENSTransferInfo)
    (hres : ∀ r, info.resolver = some r → r < 2 ^ 160) :
    ∀ c ∈ createENSTransferCalls keccak contract tokenId cur new info,
      ValidCall c := by
  intro c hc
  unfold createENSTransferCalls at hc
  split at hc
  · simp only [List.mem_singleton] at hc
    subst hc
    exact ⟨by norm_num [ENS_NAME_WRAPPER], by norm_num,
      by rw [encodeSafeTransferFrom1155_empty_length]; norm_num⟩
  · dsimp only at hc
    rcases List.mem_append.mp hc with h1 | h2
    · split at h1
      · next r heq =>
          split at h1
          · simp only [List.mem_singleton] at h1
            subst h1
            exact ⟨hres r heq, by norm_num,
              by rw [encodeSetAddr_length]; norm_num⟩
          · simp at h1
      · simp at h1
    · simp only [List.mem_cons, List.mem_singleton, List.not_mem_nil,
        or_false] at h2
      rcases h2 with h2 | h2 <;> subst h2
      · exact ⟨by norm_num [ENS_REGISTRY], by norm_num,
          by rw [encodeSetOwner_length]; norm_num⟩
      · exact ⟨by norm_num [ENS_BASE_REGISTRAR], by norm_num,
          by rw [encodeSafeTransferFrom721_length]; norm_num⟩

/-- The ENS planner emits at most three calls. -/
theorem createENSTransferCalls_length_le (keccak : Bytes → Nat)
    (contract tokenId cur new : Nat) (info : ENSTransferInfo) :
    (createENSTransferCalls keccak contract tokenId cur new info).length ≤ 3 := by
  unfold createENSTransferCalls
  split
  · simp
  · dsimp only
    split
    · split <;> simp
    · simp

/-- C1: for every ENS transfer whose plan has more than one call, the
produced transaction is the one batch transaction: a single request whose
payload is the `executeBatch` encoding of the whole plan (the decoder
recovers every planned call from it), dispatched at the account — never N
independent transactions. -/
theorem c1_multistep_ens_single_batch (keccak : Bytes → Nat) (p : Provider)
    (w o nft toAddr tokenId cid : Nat) (info : ENSInfo) (tr : List NetCall)
    (hens : isENSContract nft = true)
    (hinfo : getENSInfo keccak p tokenId (isWrappedENS nft) = (.ok info, tr))
    (hres : ∀ r, info.resolver = some r → r < 2 ^ 160)
    (hlen : 1 < (createENSTransferCalls keccak nft tokenId w toAddr
      { resolver := info.resolver, registryOwner := info.registryOwner }).length) :
    createNFTTransferTransaction keccak p w o nft toAddr tokenId cid
      = ((createSmartWalletBatchTransaction p w o
            (createENSTransferCalls keccak nft tokenId w toAddr
              { resolver := info.resolver, registryOwner := info.registryOwner })
            cid).1,
         tr ++ (createSmartWalletBatchTransaction p w o
            (createENSTransferCalls keccak nft tokenId w toAddr
              { resolver := info.resolver, registryOwner := info.registryOwner })
            cid).2)
  ∧ (∀ plan trB, createSmartWalletBatchTransaction p w o
        (createENSTransferCalls keccak nft tokenId w toAddr
          { resolver := info.resolver, registryOwner := info.registryOwner })
        cid = (.ok plan, trB) →
      plan.toAddress = w
    ∧ plan.data = encodeExecuteBatchCall
        (createENSTransferCalls keccak nft tokenId w toAddr
          { resolver := info.resolver, registryOwner := info.registryOwner })
    ∧ plan.data.take 4 = executeBatchSelector
    ∧ decodeExecuteBatchCall plan.data
        = some (createENSTransferCalls keccak nft tokenId w toAddr
            { resolver := info.resolver, registryOwner := info.registryOwner })) := by
  constructor
  · unfold createNFTTransferTransaction
    rw [if_pos hens]
    dsimp only
    rw [hinfo]
    dsimp only
    rw [if_neg (by omega)]
  · intro plan trB h
    have hb := batch_ok h
    have hdata := hb.2.1
    have hdec := decodeExecuteBatchCall_encode
      (createENSTransferCalls keccak nft tokenId w toAddr
        { resolver := info.resolver, registryOwner := info.registryOwner })
      (createENSTransferCalls_valid keccak nft tokenId w toAddr _ hres)
      (lt_of_le_of_lt
        (createENSTransferCalls_length_le keccak nft tokenId w toAddr _)
        (by norm_num))
    refine ⟨hb.1, hdata, ?_, ?_⟩
    · rw [hdata]
      unfold encodeExecuteBatchCall
      simp only [List.append_assoc]
      exact take_append_of_length _ rfl
    · rw [hdata]
      exact hdec

theorem c1_multistep_ens_single_batch_witness :
    createNFTTransferTransaction (fun _ => 0) okProvider 1 2
        ENS_BASE_REGISTRAR 4 7 1
      = ((createSmartWalletBatchTransaction okProvider 1 2
            (createENSTransferCalls (fun _ => 0) ENS_BASE_REGISTRAR 7 1 4
              { resolver := some 5, registryOwner := some 1 }) 1).1,
         [NetCall.registrarOwnerOfQuery 7, NetCall.registryOwnerQuery 0,
          NetCall.registryResolverQuery 0, NetCall.resolverAddrQuery 5 0]
           ++ (createSmartWalletBatchTransaction okProvider 1 2
            (createENSTransferCalls (fun _ => 0) ENS_BASE_REGISTRAR 7 1 4
              { resolver := some 5, registryOwner := some 1 }) 1).2) :=
  (c1_multistep_ens_single_batch (fun _ => 0) okProvider 1 2
    ENS_BASE_REGISTRAR 4 7 1
    { tokenOwner := 1, registryOwner := some 1, ethRecord := some 9,
      resolver := some 5 }
    [NetCall.registrarOwnerOfQuery 7, NetCall.registryOwnerQuery 0,
     NetCall.registryResolverQuery 0, NetCall.resolverAddrQuery 5 0]
    (by decide) rfl
    (by intro r hr; simp only [Option.some.injEq] at hr; omega)
    (by decide)).1

/-- C10: whenever the underlying owner-registry query throws, `isOwner`
returns `false` instead of propagating the error — the same answer a
definitive on-chain "not an owner" reply produces, so callers cannot tell
the two apart. -/
theorem c10_isOwner_swallows_failures (p : Provider) (w o : Nat) :
    (p.isOwnerAddress w o = .error () → isOwner p w o = false) ∧
    (p.isOwnerAddress w o = .ok false → isOwner p w o = false) := by
  constructor <;> intro h <;> simp [isOwner, h]

theorem c10_isOwner_swallows_failures_witness :
    isOwner { okProvider with isOwnerAddress := fun _ _ => .error () } 1 2 = false :=
  (c10_isOwner_swallows_failures
    { okProvider with isOwnerAddress := fun _ _ => .error () } 1 2).1 rfl

/-- C4: when the ownership check reports the signer is not an owner, the
pipeline aborts with the not-an-owner error; the issued network calls are
exactly the bytecode query and the ownership query — no pre-flight
simulation, no gas estimation, no assembly. -/
theorem c4_not_owner_short_circuit (p : Provider) (w o : Nat) (call : Call)
    (chainId : Nat) (hcode : p.getCode w ≠ [])
    (hown : isOwner p w o = false) :
    createSmartWalletTransaction p w o call chainId
      = (.error (.notOwner o w), [.getCode w, .isOwnerAddressQuery w o]) := by
  unfold createSmartWalletTransaction
  rw [if_neg hcode, hown]
  simp

/-- C8: the ENS planner — a wrapped name yields the single ERC-1155
transfer call; an unwrapped name yields the ordered plan: the resolver
address-record update exactly when a non-zero resolver is registered, then
the registry authority update, then the mandatory registrar token transfer
(3 calls with a resolver, 2 without). -/
theorem c8_ens_plan_structure (keccak : Bytes → Nat)
    (tokenId currentOwner newOwner : Nat) (info : ENSTransferInfo) :
    (∀ contract, isWrappedENS contract = true →
      createENSTransferCalls keccak contract tokenId currentOwner newOwner info
        = [{ target := ENS_NAME_WRAPPER, value := 0,
             data := encodeSafeTransferFrom1155 currentOwner newOwner tokenId 1 [] }])
  ∧ (∀ contract r, isWrappedENS contract = false → info.resolver = some r →
      r ≠ 0 →
      createENSTransferCalls keccak contract tokenId currentOwner newOwner info
        = [{ target := r, value := 0,
             data := encodeSetAddr (tokenIdToNamehash keccak tokenId) newOwner },
           { target := ENS_REGISTRY, value := 0,
             data := encodeSetOwner (tokenIdToNamehash keccak tokenId) newOwner },
           { target := ENS_BASE_REGISTRAR, value := 0,
             data := encodeSafeTransferFrom721 currentOwner newOwner tokenId }])
  ∧ (∀ contract, isWrappedENS contract = false →
      (info.resolver = none ∨ info.resolver = some 0) →
      createENSTransferCalls keccak contract tokenId currentOwner newOwner info
        = [{ target := ENS_REGISTRY, value := 0,
             data := encodeSetOwner (tokenIdToNamehash keccak tokenId) newOwner },
           { target := ENS_BASE_REGISTRAR, value := 0,
             data := encodeSafeTransferFrom721 currentOwner newOwner tokenId }]) := by
  refine ⟨?_, ?_, ?_⟩
  · intro contract hw
    simp [createENSTransferCalls, hw]
  · intro contract r hw hres hr
    simp [createENSTransferCalls, hw, hres, hr]
  · intro contract hw hres
    rcases hres with h | h <;> simp [createENSTransferCalls, hw, h]

theorem c8_ens_plan_structure_witness :
    createENSTransferCalls (fun _ => 3) ENS_NAME_WRAPPER 7 100 200
        { resolver := some 5, registryOwner := some 1 }
      = [{ target := ENS_NAME_WRAPPER, value := 0,
           data := encodeSafeTransferFrom1155 100 200 7 1 [] }]
  ∧ createENSTransferCalls (fun _ => 3) ENS_BASE_REGISTRAR 7 100 200
        { resolver := some 5, registryOwner := some 1 }
      = [{ target := 5, value := 0,
           data := encodeSetAddr (tokenIdToNamehash (fun _ => 3) 7) 200 },
         { target := ENS_REGISTRY, value := 0,
           data := encodeSetOwner (tokenIdToNamehash (fun _ => 3) 7) 200 },
         { target := ENS_BASE_REGISTRAR, value := 0,
           data := encodeSafeTransferFrom721 100 200 7 }]
  ∧ createENSTransferCalls (fun _ => 3) ENS_BASE_REGISTRAR 7 100 200
        { resolver := none, registryOwner := some 1 }
      = [{ target := ENS_REGISTRY, value := 0,
           data := encodeSetOwner (tokenIdToNamehash (fun _ => 3) 7) 200 },
         { target := ENS_BASE_REGISTRAR, value := 0,
           data := encodeSafeTransferFrom721 100 200 7 }] :=
  ⟨(c8_ens_plan_structure (fun _ => 3) 7 100 200
      { resolver := some 5, registryOwner := some 1 }).1 ENS_NAME_WRAPPER
      (by decide),
   (c8_ens_plan_structure (fun _ => 3) 7 100 200
      { resolver := some 5, registryOwner := some 1 }).2.1 ENS_BASE_REGISTRAR 5
      (by decide) rfl (by decide),
   (c8_ens_plan_structure (fun _ => 3) 7 100 200
      { resolver := none, registryOwner := some 1 }).2.2 ENS_BASE_REGISTRAR
      (by decide) (Or.inl rfl)⟩

/-- C6: round trip — encoding a fungible transfer of amount `A` of token
`T` to recipient `R` and classifying the resulting call yields back exactly
the fungible-transfer classification with token `T` (the call target),
recipient `R` and amount `A`, for every valid `T`, `R`, `A`. -/
theorem c6_fungible_round_trip (T R A : Nat) (hT : T < 2 ^ 160)
    (hR : R < 2 ^ 160) (hA : A < 2 ^ 256) :
    classifyCall (createSendERC20Call T R A)
      = some (.fungibleTransfer T R A) := by
  have hR256 : R < 2 ^ 256 := lt_trans hR (by norm_num)
  have hsel : erc20TransferSelector.length = 4 := rfl
  have hA32 : (beBytes 32 A).take 32 = beBytes 32 A :=
    take_all_of_length (beBytes_length 32 A)
  unfold classifyCall createSendERC20Call decodeErc20Transfer
  simp only [List.append_assoc]
  rw [take_append_of_length _ hsel, drop_append_of_length _ hsel,
    word_take, word_drop, hA32, bytesToNat_word R hR256, bytesToNat_word A hA]
  rw [if_neg (by simp [erc20TransferSelector])]
  rw [if_neg (by decide), if_neg (by decide), if_pos rfl]
  rw [if_pos ⟨rfl, by simp [beBytes_length, erc20TransferSelector]⟩, if_pos hR]
  rfl

theorem c6_fungible_round_trip_witness :
    classifyCall (createSendERC20Call 0xdac17f958d2ee523a2206206994597c13d831ec7 5 7)
      = some (.fungibleTransfer 0xdac17f958d2ee523a2206206994597c13d831ec7 5 7) :=
  c6_fungible_round_trip 0xdac17f958d2ee523a2206206994597c13d831ec7 5 7
    (by norm_num) (by norm_num) (by norm_num)

/-- C7: round trip for owner removal — the call assembled by
`createRemoveOwnerTransaction` targets the wallet and encodes
`removeOwnerAtIndex` with both the index and the owner bytes, and decoding
the assembled payload yields back exactly that index and those bytes. -/
theorem c7_remove_owner_round_trip (p : Provider) (w o : Nat) (i : Nat)
    (b : Bytes) (cid : Nat) (hi : i < 2 ^ 256) (hb : b.length < 2 ^ 256) :
    (createRemoveOwnerTransaction p w o i b cid).target = w ∧
    (createRemoveOwnerTransaction p w o i b cid).data
      = encodeRemoveOwnerAtIndex i b ∧
    decodeRemoveOwnerAtIndex (createRemoveOwnerTransaction p w o i b cid).data
      = some (i, b) := by
  refine ⟨rfl, rfl, ?_⟩
  have hzp := zeroPadRight_length b
  have hpad := le_pad32Len b.length
  have hsel : removeOwnerAtIndexSelector.length = 4 := rfl
  have hdata : (zeroPadRight b).take b.length = b := by
    rw [zeroPadRight]
    have := take_append_of_length (a := b)
      (List.replicate (pad32Len b.length - b.length) 0) (k := b.length) rfl
    exact this
  show decodeRemoveOwnerAtIndex (encodeRemoveOwnerAtIndex i b) = some (i, b)
  unfold decodeRemoveOwnerAtIndex encodeRemoveOwnerAtIndex encodeBytesArg
  simp only [List.append_assoc]
  rw [take_append_of_length _ hsel, drop_append_of_length _ hsel,
    word_take, word_drop, word_take, word_drop, word_take, word_drop,
    bytesToNat_word i hi, bytesToNat_word b.length hb, hdata]
  rw [if_pos ⟨rfl, by simp [beBytes_length, removeOwnerAtIndexSelector, hzp]; omega⟩,
    if_pos rfl,
    if_pos (by simp [beBytes_length, removeOwnerAtIndexSelector, hzp]; omega)]

theorem c7_remove_owner_round_trip_witness :
    decodeRemoveOwnerAtIndex
      (createRemoveOwnerTransaction okProvider 1 2 2 (List.replicate 32 0xAA) 1).data
      = some (2, List.replicate 32 0xAA) :=
  (c7_remove_owner_round_trip okProvider 1 2 2 (List.replicate 32 0xAA) 1
    (by norm_num) (by norm_num)).2.2

theorem c4_not_owner_short_circuit_witness :
    createSmartWalletTransaction
        { okProvider with isOwnerAddress := fun _ _ => .ok false } 1 2
        { target := 3, value := 0, data := [1] } 1
      = (.error (.notOwner 2 1), [.getCode 1, .isOwnerAddressQuery 1 2]) :=
  c4_not_owner_short_circuit
    { okProvider with isOwnerAddress := fun _ _ => .ok false } 1 2
    { target := 3, value := 0, data := [1] } 1 (by decide) rfl

end Openburner
